import Mathlib

/-!
# Verification of the `iced_table` widget core

A shallow embedding of the table widget library (`src/lib.rs`, `src/divider.rs`):
the column sizing arithmetic of the table composer, the divider drag state
machine, and the body scroll-sync closure, together with proofs of the
specified properties.

Coordinates and widths (`f32` in the source) are modelled as rationals;
the floating-point rounding of `f32` is outside the model.  Geometry
primitives (`Point`, `Rectangle`, `Cursor`) come from the host toolkit
`iced_core`, an external collaborator of this repository; they are modelled
with the toolkit's documented semantics (`Rectangle::contains` is closed on
the near edges and open on the far edges).
-/

set_option autoImplicit false

namespace IcedTable

/-- A 2-d point (`iced_core::Point`). -/
structure Point where
  x : ℚ
  y : ℚ
  deriving DecidableEq, Repr

/-- An axis-aligned rectangle (`iced_core::Rectangle`). -/
structure Rectangle where
  x : ℚ
  y : ℚ
  width : ℚ
  height : ℚ
  deriving DecidableEq, Repr

/-- `iced_core::Rectangle::contains`: closed on the near edges, open on the
far edges. -/
def Rectangle.contains (r : Rectangle) (p : Point) : Bool :=
  decide (r.x ≤ p.x) && decide (p.x < r.x + r.width) &&
    decide (r.y ≤ p.y) && decide (p.y < r.y + r.height)

/-- `iced_core::mouse::Cursor`: either an available pointer position or no
position at all. -/
inductive Cursor where
  | available (p : Point)
  | unavailable
  deriving DecidableEq, Repr

/-- `Cursor::position`. -/
def Cursor.position : Cursor → Option Point
  | .available p => some p
  | .unavailable => none

/-- `Cursor::is_over`: the cursor has a position and it lies in the bounds. -/
def Cursor.is_over (c : Cursor) (r : Rectangle) : Bool :=
  match c with
  | .available p => r.contains p
  | .unavailable => false

/-- `Cursor::position_over`: the cursor position, filtered by the bounds. -/
def Cursor.position_over (c : Cursor) (r : Rectangle) : Option Point :=
  match c with
  | .available p => if r.contains p then some p else none
  | .unavailable => none

/-! ## Divider widget (`src/divider.rs`) -/

/-- The divider widget's persistent interaction state (`divider.rs`,
`struct State`). -/
structure DividerState where
  drag_origin : Option Point
  is_divider_hovered : Bool
  deriving DecidableEq, Repr

/-- `#[derive(Default)]` on `State`: no drag in progress, not hovered. -/
def DividerState.default : DividerState :=
  { drag_origin := none, is_divider_hovered := false }

/-- `Divider::divider_bounds`: the handle strip of width `divider_width`
along the trailing edge of the layout bounds. -/
def divider_bounds (divider_width : ℚ) (bounds : Rectangle) : Rectangle :=
  { bounds with x := bounds.x + bounds.width - divider_width, width := divider_width }

/-- `Divider::divider_hover_bounds`: the handle strip expanded by 5 units on
each side. -/
def divider_hover_bounds (divider_width : ℚ) (bounds : Rectangle) : Rectangle :=
  let b := divider_bounds divider_width bounds
  { b with x := b.x - 5, width := b.width + 10 }

/-- `Divider::is_content_hovered`: the layout bounds with
`x` replaced by `min (x + 5) (x + width - 5)` and the width left unchanged,
tested against the cursor. -/
def is_content_hovered (bounds : Rectangle) (cursor : Cursor) : Bool :=
  let b := { bounds with x := min (bounds.x + 5) (bounds.x + bounds.width - 5) }
  cursor.is_over b

/-- `iced_core::mouse::Button` (the variants the divider distinguishes). -/
inductive MouseButton where
  | left
  | right
  | middle
  deriving DecidableEq, Repr

/-- `iced_core::mouse::Event`, restricted to the shapes matched by
`Divider::on_event`; everything else falls into `otherMouse`.  The
`CursorMoved` payload is unused by the source (it reads `cursor.position()`
instead), so it is not modelled. -/
inductive MouseEvent where
  | buttonPressed (button : MouseButton)
  | buttonReleased (button : MouseButton)
  | cursorMoved
  | otherMouse
  deriving DecidableEq, Repr

/-- `iced_core::event::Event`: a mouse event or anything else. -/
inductive Event where
  | mouse (e : MouseEvent)
  | nonMouse
  deriving DecidableEq, Repr

/-- Result of one `Divider::on_event` call: the updated widget state, the
messages published to the shell, and whether the divider itself returned
`event::Status::Captured`.  `captured = false` means the event falls through
to `self.content.on_event` (the child); the child's own status is outside
this model. -/
structure StepResult (Msg : Type) where
  state : DividerState
  published : List Msg
  captured : Bool

/-- `Divider::on_event` (`divider.rs` lines 116-169).  First
`is_divider_hovered` is recomputed from the cursor against the hover bounds;
then a left press inside the hover bounds records `drag_origin` and captures;
a left release with an active `drag_origin` clears it, publishes
`on_release` and captures; a cursor move with an available position and an
active `drag_origin` publishes `on_drag ((position - origin).x)` and
captures; every other event is forwarded to the child unchanged. -/
def divider_on_event {Msg : Type} (divider_width : ℚ) (on_drag : ℚ → Msg)
    (on_release : Msg) (bounds : Rectangle) (cursor : Cursor)
    (state : DividerState) (event : Event) : StepResult Msg :=
  let state1 : DividerState :=
    { state with is_divider_hovered :=
        cursor.is_over (divider_hover_bounds divider_width bounds) }
  match event with
  | .mouse (.buttonPressed .left) =>
      match cursor.position_over (divider_hover_bounds divider_width bounds) with
      | some origin => ⟨{ state1 with drag_origin := some origin }, [], true⟩
      | none => ⟨state1, [], false⟩
  | .mouse (.buttonReleased .left) =>
      match state1.drag_origin with
      | some _ => ⟨{ state1 with drag_origin := none }, [on_release], true⟩
      | none => ⟨state1, [], false⟩
  | .mouse .cursorMoved =>
      match cursor.position with
      | some position =>
          match state1.drag_origin with
          | some origin => ⟨state1, [on_drag (position.x - origin.x)], true⟩
          | none => ⟨state1, [], false⟩
      | none => ⟨state1, [], false⟩
  | _ => ⟨state1, [], false⟩

/-- Run a sequence of events (each with the cursor at delivery time) through
`Divider::on_event`, threading the widget state.  The layout bounds are
fixed, as they are within one layout pass. -/
def divider_run {Msg : Type} (divider_width : ℚ) (on_drag : ℚ → Msg)
    (on_release : Msg) (bounds : Rectangle) :
    DividerState → List (Event × Cursor) → DividerState
  | s, [] => s
  | s, (e, c) :: rest =>
      divider_run divider_width on_drag on_release bounds
        (divider_on_event divider_width on_drag on_release bounds c s e).state rest

/-- An event/cursor pair that is a left-button press whose cursor position
lies inside the divider's hover bounds. -/
def press_inside_hover (divider_width : ℚ) (bounds : Rectangle)
    (ec : Event × Cursor) : Bool :=
  match ec.1 with
  | .mouse (.buttonPressed .left) =>
      (ec.2.position_over (divider_hover_bounds divider_width bounds)).isSome
  | _ => false

/-- An event/cursor pair that is a left-button release. -/
def left_release (ec : Event × Cursor) : Bool :=
  match ec.1 with
  | .mouse (.buttonReleased .left) => true
  | _ => false

/-! ## Table composer (`src/lib.rs`) -/

/-- The sizing state a `Column` implementation reports each frame:
`Column::width` and `Column::resize_offset`. -/
structure ColumnState where
  width : ℚ
  resize_offset : Option ℚ
  deriving DecidableEq, Repr

/-- The width given to the divider's container in `with_divider`
(`lib.rs` lines 454-455):
`(column.width() + column.resize_offset().unwrap_or_default()).max(min_column_width)`. -/
def with_divider_width (column : ColumnState) (min_column_width : ℚ) : ℚ :=
  max (column.width + column.resize_offset.getD 0) min_column_width

/-- The width given to a body cell row in `body_container`
(`lib.rs` lines 386 and 395): `width = column.width() + resize_offset`,
then `width.max(min_column_width)` on the row. -/
def body_container_width (column : ColumnState) (min_column_width : ℚ) : ℚ :=
  let width := column.width + column.resize_offset.getD 0
  max width min_column_width

/-- The total width summed in `dummy_container` (`lib.rs` lines 492-497). -/
def dummy_container_total_width (columns : List ColumnState)
    (min_column_width : ℚ) : ℚ :=
  (columns.map (fun column =>
    max (column.width + column.resize_offset.getD 0) min_column_width)).sum

/-- `dummy_container` (`lib.rs` lines 481-502): the trailing filler cell,
`some w` when a filler of width `w` is appended and `none` when no filler
element is produced.  `remaining = min_width - total_width`; the filler
exists iff `remaining > 0` and then has width `remaining`. -/
def dummy_container (columns : List ColumnState) (min_width min_column_width : ℚ) :
    Option ℚ :=
  let total_width := dummy_container_total_width columns min_column_width
  let remaining := min_width - total_width
  if remaining > 0 then some remaining else none

/-- The total rendered width of one table row slice: the column widths plus
the filler (if any). -/
def rendered_total_width (columns : List ColumnState)
    (min_width min_column_width : ℚ) : ℚ :=
  dummy_container_total_width columns min_column_width +
    (dummy_container columns min_width min_column_width).getD 0

/-- The spec's effective-width formula (§3 of the spec):
`max(width + resize_offset.unwrap_or(0), min_column_width)`.  Stated from
the spec's words, to be compared with the widths the source computes. -/
def effective_width_spec (column : ColumnState) (min_column_width : ℚ) : ℚ :=
  max (column.width + column.resize_offset.getD 0) min_column_width

/-- The new absolute width computed inside the `with_divider` drag closure
(`lib.rs` line 464): `(old_width + offset).max(min_column_width)`. -/
def effective_width (old_width delta min_column_width : ℚ) : ℚ :=
  max (old_width + delta) min_column_width

/-- The drag closure `with_divider` wires into the divider
(`lib.rs` lines 463-467): given the raw divider offset, report
`(index, new_width - old_width)` where
`new_width = (old_width + offset).max(min_column_width)` and `old_width` is
the column's committed width captured when the closure was built. -/
def with_divider_on_drag {Msg : Type} (index : ℕ)
    (old_width min_column_width : ℚ) (on_drag : ℕ → ℚ → Msg) : ℚ → Msg :=
  fun offset =>
    let new_width := max (old_width + offset) min_column_width
    on_drag index (new_width - old_width)

/-! ## Body scroll synchronization (`src/lib.rs` lines 282-286) -/

/-- `iced_widget::scrollable::AbsoluteOffset`. -/
structure AbsoluteOffset where
  x : ℚ
  y : ℚ
  deriving DecidableEq, Repr

/-- The `on_scroll` closure attached to the body scrollable
(`lib.rs` lines 282-286): read the viewport's absolute offset and report it
with the vertical component replaced by `0`. -/
def body_on_scroll {Msg : Type} (on_sync : AbsoluteOffset → Msg)
    (offset : AbsoluteOffset) : Msg :=
  on_sync { offset with y := 0 }

/-- The messages one body scroll event produces.  The host toolkit's
scrollable invokes its `on_scroll` closure exactly once per scroll event
(toolkit contract, external to this repository); the closure itself is
`body_on_scroll`. -/
def body_scroll_event_messages {Msg : Type} (on_sync : AbsoluteOffset → Msg)
    (offset : AbsoluteOffset) : List Msg :=
  [body_on_scroll on_sync offset]

/-! ## Concrete data for witnesses -/

/-- The five columns of the spec's end-to-end examples:
widths `[60, 100, 155, 400, 100]`, no resize in flight. -/
def example_columns : List ColumnState :=
  [⟨60, none⟩, ⟨100, none⟩, ⟨155, none⟩, ⟨400, none⟩, ⟨100, none⟩]

/-- A trivial drag message for concrete instantiations. -/
def unit_drag : ℚ → Unit := fun _ => ()

/-! ## Theorems -/

/-- C9: the effective width computed by the `with_divider` drag closure
equals `max (old_width + delta) min_column_width`, and for fixed
`old_width` and `min_column_width` it is non-decreasing in `delta`. -/
theorem effective_width_eq_max_and_monotone
    (old_width delta delta1 delta2 min_column_width : ℚ) :
    effective_width old_width delta min_column_width =
      max (old_width + delta) min_column_width ∧
    (delta1 ≤ delta2 →
      effective_width old_width delta1 min_column_width ≤
        effective_width old_width delta2 min_column_width) := by
  refine ⟨rfl, fun h => ?_⟩
  exact max_le_max (by linarith) le_rfl

/-- Witness for C9's monotonicity at `old_width = 100`, `min = 4`,
deltas `-500 ≤ 30`. -/
theorem effective_width_monotone_witness :
    (-500 : ℚ) ≤ 30 ∧
      effective_width 100 (-500) 4 ≤ effective_width 100 30 4 :=
  ⟨by norm_num,
    (effective_width_eq_max_and_monotone 100 0 (-500) 30 4).2 (by norm_num)⟩

/-- C2: all three sizing sites — the `with_divider` container, the body cell
row, and the `dummy_container` total-width sum — apply the same formula
`max (width + resize_offset.unwrap_or(0)) min_column_width` to every
column. -/
theorem column_width_formula_consistent (column : ColumnState)
    (columns : List ColumnState) (min_column_width : ℚ) :
    with_divider_width column min_column_width =
      effective_width_spec column min_column_width ∧
    body_container_width column min_column_width =
      effective_width_spec column min_column_width ∧
    dummy_container_total_width columns min_column_width =
      (columns.map (fun c => effective_width_spec c min_column_width)).sum :=
  ⟨rfl, rfl, rfl⟩

/-- C4: the body scrollable's `on_scroll` closure produces, per scroll event,
exactly one sync notification, carrying the new horizontal offset and a
vertical offset of `0`; concretely a scroll to `(37, 120)` yields the single
notification `on_sync ⟨37, 0⟩`. -/
theorem body_scroll_sync_payload {Msg : Type} (on_sync : AbsoluteOffset → Msg)
    (x y : ℚ) :
    body_scroll_event_messages on_sync ⟨x, y⟩ = [on_sync ⟨x, 0⟩] ∧
    (body_scroll_event_messages on_sync ⟨x, y⟩).length = 1 ∧
    body_scroll_event_messages on_sync ⟨37, 120⟩ = [on_sync ⟨37, 0⟩] :=
  ⟨rfl, rfl, rfl⟩

/-- C3: the trailing filler cell exists iff the effective column widths sum
to less than `min_width`; when present its width is exactly
`min_width - total`, so the rendered total width is `max total min_width`;
with the example columns (sum `815`) and `min_width = 0` no filler is
produced. -/
theorem dummy_container_filler (columns : List ColumnState)
    (min_width min_column_width : ℚ) :
    ((dummy_container columns min_width min_column_width).isSome = true ↔
      dummy_container_total_width columns min_column_width < min_width) ∧
    (dummy_container_total_width columns min_column_width < min_width →
      dummy_container columns min_width min_column_width =
        some (min_width - dummy_container_total_width columns min_column_width)) ∧
    rendered_total_width columns min_width min_column_width =
      max (dummy_container_total_width columns min_column_width) min_width ∧
    dummy_container example_columns 0 4 = none ∧
    dummy_container_total_width example_columns 4 = 815 := by
  refine ⟨?_, ?_, ?_, ?_, ?_⟩
  · simp only [dummy_container]
    split_ifs with h
    · simp only [Option.isSome_some, true_iff]
      linarith
    · simp only [Option.isSome_none, Bool.false_eq_true, false_iff, not_lt]
      linarith
  · intro h
    simp only [dummy_container]
    rw [if_pos (by linarith)]
  · simp only [rendered_total_width, dummy_container]
    split_ifs with h
    · rw [max_eq_right (by linarith : dummy_container_total_width columns min_column_width ≤ min_width)]
      simp only [Option.getD_some]
      ring
    · rw [max_eq_left (by linarith : min_width ≤ dummy_container_total_width columns min_column_width)]
      simp
  · simp only [dummy_container]
    rw [if_neg]
    simp only [dummy_container_total_width, example_columns, List.map, List.sum_cons,
      List.sum_nil, Option.getD_none, not_lt]
    norm_num [max_def]
  · simp only [dummy_container_total_width, example_columns, List.map, List.sum_cons,
      List.sum_nil, Option.getD_none]
    norm_num [max_def]

/-- Witness for C3's conditional filler width: the spec's `min_width = 1000`
example, where the columns sum to `815` and the filler is `185` wide. -/
theorem dummy_container_filler_witness :
    dummy_container example_columns 1000 4 = some 185 := by
  have htot := (dummy_container_filler example_columns 1000 4).2.2.2.2
  have h := (dummy_container_filler example_columns 1000 4).2.1 (by rw [htot]; norm_num)
  rw [h, htot]
  norm_num

/-- C6: after any event — mouse or not, handled or not — the divider's
`is_divider_hovered` equals the current cursor tested against the hover
bounds; the recomputation happens before any consumption decision, so it
holds in every branch of `on_event`. -/
theorem is_divider_hovered_recomputed {Msg : Type} (on_drag : ℚ → Msg)
    (on_release : Msg) (divider_width : ℚ) (bounds : Rectangle) (c : Cursor)
    (s : DividerState) (e : Event) :
    (divider_on_event divider_width on_drag on_release bounds c s e).state.is_divider_hovered =
      c.is_over (divider_hover_bounds divider_width bounds) := by
  rcases e with me | _
  · rcases me with b | b | _ | _
    · rcases b
      · rcases h : c.position_over (divider_hover_bounds divider_width bounds) with _ | p <;>
          simp [divider_on_event, h]
      · rfl
      · rfl
    · rcases b
      · rcases h : s.drag_origin with _ | p <;>
          simp [divider_on_event, h]
      · rfl
      · rfl
    · rcases c with p | _ <;>
        rcases h2 : s.drag_origin with _ | q <;>
        simp [divider_on_event, Cursor.position, h2]
    · rfl
  · rfl

/-- Unfold `Rectangle.contains` into its four inequalities. -/
theorem contains_iff (r : Rectangle) (p : Point) :
    r.contains p = true ↔
      r.x ≤ p.x ∧ p.x < r.x + r.width ∧ r.y ≤ p.y ∧ p.y < r.y + r.height := by
  simp [Rectangle.contains, and_assoc]

/-- `position_over` on an available cursor is the position filtered by
`contains`. -/
theorem position_over_available (p : Point) (r : Rectangle) :
    Cursor.position_over (Cursor.available p) r =
      if r.contains p then some p else none := rfl

/-- Running a concatenation of event sequences threads the divider state. -/
theorem divider_run_append {Msg : Type} (divider_width : ℚ) (on_drag : ℚ → Msg)
    (on_release : Msg) (bounds : Rectangle) (l1 l2 : List (Event × Cursor))
    (s : DividerState) :
    divider_run divider_width on_drag on_release bounds s (l1 ++ l2) =
      divider_run divider_width on_drag on_release bounds
        (divider_run divider_width on_drag on_release bounds s l1) l2 := by
  induction l1 generalizing s with
  | nil => rfl
  | cons ec rest ih =>
      obtain ⟨e, c⟩ := ec
      simp only [List.cons_append, divider_run]
      exact ih _

/-- How one `on_event` call changes `drag_origin`: a left press inside the
hover bounds overwrites it with the press position, a left release clears
it, and every other event leaves it unchanged. -/
theorem divider_on_event_drag_origin {Msg : Type} (on_drag : ℚ → Msg)
    (on_release : Msg) (divider_width : ℚ) (bounds : Rectangle) (c : Cursor)
    (s : DividerState) (e : Event) :
    (divider_on_event divider_width on_drag on_release bounds c s e).state.drag_origin =
      if press_inside_hover divider_width bounds (e, c) then
        c.position_over (divider_hover_bounds divider_width bounds)
      else if left_release (e, c) then none
      else s.drag_origin := by
  rcases e with me | _
  · rcases me with b | b | _ | _
    · rcases b
      · rcases h : c.position_over (divider_hover_bounds divider_width bounds) with _ | p <;>
          simp [divider_on_event, press_inside_hover, left_release, h]
      · simp [divider_on_event, press_inside_hover, left_release]
      · simp [divider_on_event, press_inside_hover, left_release]
    · rcases b
      · rcases h : s.drag_origin with _ | p <;>
          simp [divider_on_event, press_inside_hover, left_release, h]
      · simp [divider_on_event, press_inside_hover, left_release]
      · simp [divider_on_event, press_inside_hover, left_release]
    · rcases c with p | _ <;>
        rcases h2 : s.drag_origin with _ | q <;>
        simp [divider_on_event, press_inside_hover, left_release, Cursor.position, h2]
    · simp [divider_on_event, press_inside_hover, left_release]
  · simp [divider_on_event, press_inside_hover, left_release]

/-- C5: starting from the default state, `drag_origin` is `Some` only when
the event sequence contains a left press inside the hover bounds with no
left release after it; a left press outside the hover bounds never changes
`drag_origin` and is never captured by the divider itself (it falls through
to the child); and a left release while `drag_origin` is `Some` always
clears it. -/
theorem drag_origin_press_release_invariant {Msg : Type} (on_drag : ℚ → Msg)
    (on_release : Msg) (divider_width : ℚ) (bounds : Rectangle) :
    (∀ es : List (Event × Cursor),
      (divider_run divider_width on_drag on_release bounds
          DividerState.default es).drag_origin.isSome = true →
      ∃ l1 p l2, es = l1 ++ p :: l2 ∧
        press_inside_hover divider_width bounds p = true ∧
        ∀ q ∈ l2, left_release q = false) ∧
    (∀ (s : DividerState) (c : Cursor),
      c.position_over (divider_hover_bounds divider_width bounds) = none →
      (divider_on_event divider_width on_drag on_release bounds c s
          (Event.mouse (MouseEvent.buttonPressed MouseButton.left))).state.drag_origin =
        s.drag_origin ∧
      (divider_on_event divider_width on_drag on_release bounds c s
          (Event.mouse (MouseEvent.buttonPressed MouseButton.left))).captured = false) ∧
    (∀ (s : DividerState) (c : Cursor),
      s.drag_origin.isSome = true →
      (divider_on_event divider_width on_drag on_release bounds c s
          (Event.mouse (MouseEvent.buttonReleased MouseButton.left))).state.drag_origin =
        none) := by
  refine ⟨?_, ?_, ?_⟩
  · intro es
    induction es using List.reverseRecOn with
    | nil =>
        intro h
        simp [divider_run, DividerState.default] at h
    | append_singleton l ec ih =>
        intro h
        rw [divider_run_append] at h
        have hstep :
            divider_run divider_width on_drag on_release bounds
                (divider_run divider_width on_drag on_release bounds
                  DividerState.default l) [ec] =
              (divider_on_event divider_width on_drag on_release bounds ec.2
                (divider_run divider_width on_drag on_release bounds
                  DividerState.default l) ec.1).state := rfl
        rw [hstep, divider_on_event_drag_origin] at h
        by_cases hp : press_inside_hover divider_width bounds (ec.1, ec.2) = true
        · exact ⟨l, ec, [], by simp, hp, by simp⟩
        · rw [if_neg hp] at h
          by_cases hr : left_release (ec.1, ec.2) = true
          · rw [if_pos hr] at h
            simp at h
          · rw [if_neg hr] at h
            obtain ⟨l1, p, l2, rfl, hp2, hl2⟩ := ih h
            refine ⟨l1, p, l2 ++ [ec], by simp, hp2, ?_⟩
            intro q hq
            rcases List.mem_append.1 hq with hq1 | hq2
            · exact hl2 q hq1
            · have : q = ec := by simpa using hq2
              subst this
              exact Bool.not_eq_true _ ▸ Bool.of_not_eq_true hr
  · intro s c hc
    constructor <;> simp [divider_on_event, hc]
  · intro s c hs
    rcases h : s.drag_origin with _ | p
    · rw [h] at hs
      simp at hs
    · simp [divider_on_event, h]

/-- Witness for C5: with bounds `(0,0,100,20)` and divider width `2` (hover
region `[93,105)`), a press at `x = 10` while a stale drag at `(50,5)` is
latched leaves `drag_origin` unchanged and uncaptured. -/
theorem drag_origin_invariant_witness :
    (divider_on_event 2 unit_drag () ⟨0, 0, 100, 20⟩ (Cursor.available ⟨10, 5⟩)
        { drag_origin := some ⟨50, 5⟩, is_divider_hovered := false }
        (Event.mouse (MouseEvent.buttonPressed MouseButton.left))).state.drag_origin =
      some ⟨50, 5⟩ := by
  have hc : ¬((divider_hover_bounds 2 ⟨0, 0, 100, 20⟩).contains ⟨10, 5⟩ = true) := by
    norm_num [contains_iff, divider_hover_bounds, divider_bounds]
  have hnone : (Cursor.available ⟨10, 5⟩).position_over
      (divider_hover_bounds 2 ⟨0, 0, 100, 20⟩) = none := by
    rw [position_over_available, if_neg hc]
  have h := ((drag_origin_press_release_invariant unit_drag () 2 ⟨0, 0, 100, 20⟩).2.1
    { drag_origin := some ⟨50, 5⟩, is_divider_hovered := false }
    (Cursor.available ⟨10, 5⟩) hnone).1
  simpa using h

/-- C7: a cursor-move event with an available position, delivered while
`drag_origin` is `Some`, publishes exactly the delta notification
`on_drag (position.x - origin.x)` — horizontal component only — keeps the
drag origin, and captures the event (it is not forwarded to the child). -/
theorem cursor_moved_drag_delta {Msg : Type} (on_drag : ℚ → Msg)
    (on_release : Msg) (divider_width : ℚ) (bounds : Rectangle)
    (s : DividerState) (origin position : Point)
    (h : s.drag_origin = some origin) :
    divider_on_event divider_width on_drag on_release bounds
        (Cursor.available position) s (Event.mouse MouseEvent.cursorMoved) =
      ⟨{ s with is_divider_hovered :=
            ((Cursor.available position).is_over
              (divider_hover_bounds divider_width bounds)) },
        [on_drag (position.x - origin.x)], true⟩ := by
  simp [divider_on_event, Cursor.position, h]

/-- Witness for C7: a move to `(80, 10)` during a drag with origin `(50, 10)`
publishes the horizontal delta `30` and captures. -/
theorem cursor_moved_drag_delta_witness :
    divider_on_event 2 id (0 : ℚ) ⟨0, 0, 100, 20⟩ (Cursor.available ⟨80, 10⟩)
        { drag_origin := some ⟨50, 10⟩, is_divider_hovered := false }
        (Event.mouse MouseEvent.cursorMoved) =
      ⟨{ drag_origin := some ⟨50, 10⟩, is_divider_hovered := false },
        [(30 : ℚ)], true⟩ := by
  rw [cursor_moved_drag_delta id (0 : ℚ) 2 ⟨0, 0, 100, 20⟩ _ ⟨50, 10⟩ ⟨80, 10⟩ rfl]
  have hc : ¬((divider_hover_bounds 2 ⟨0, 0, 100, 20⟩).contains ⟨80, 10⟩ = true) := by
    norm_num [contains_iff, divider_hover_bounds, divider_bounds]
  have hover : (Cursor.available ⟨80, 10⟩).is_over
      (divider_hover_bounds 2 ⟨0, 0, 100, 20⟩) = false := by
    simpa [Cursor.is_over] using hc
  rw [hover]
  norm_num

/-- C1: the notification the `with_divider`-wired divider publishes for a
drag-move at pointer `position` with drag origin `origin` is
`on_drag index (max (old_width + (position.x - origin.x)) min_column_width - old_width)`
— `old_width` is the committed width captured at render time, and the drag
origin is left unchanged by the move, so each notification of one drag is a
pure function of the current pointer position and the drag origin, never of
a previous notification.  A raw delta of `-500` on a width-100 column with
`min_column_width = 4` yields the notification delta `-96`, for a resulting
width of `4`. -/
theorem with_divider_drag_notification {Msg : Type} (on_drag : ℕ → ℚ → Msg)
    (on_release : Msg) (index : ℕ) (old_width min_column_width divider_width : ℚ)
    (bounds : Rectangle) (s : DividerState) (origin position : Point)
    (h : s.drag_origin = some origin) :
    (divider_on_event divider_width
        (with_divider_on_drag index old_width min_column_width on_drag) on_release
        bounds (Cursor.available position) s
        (Event.mouse MouseEvent.cursorMoved)).published =
      [on_drag index
        (max (old_width + (position.x - origin.x)) min_column_width - old_width)] ∧
    (divider_on_event divider_width
        (with_divider_on_drag index old_width min_column_width on_drag) on_release
        bounds (Cursor.available position) s
        (Event.mouse MouseEvent.cursorMoved)).state.drag_origin = some origin ∧
    with_divider_on_drag index 100 4 on_drag (-500) = on_drag index (-96) ∧
    (100 : ℚ) + (max ((100 : ℚ) + (-500)) 4 - 100) = 4 := by
  refine ⟨?_, ?_, ?_, ?_⟩
  · simp [divider_on_event, Cursor.position, h, with_divider_on_drag]
  · simp [divider_on_event, Cursor.position, h]
  · show on_drag index _ = on_drag index _
    rw [max_eq_right (by norm_num : (100 : ℚ) + -500 ≤ 4)]
    norm_num
  · rw [max_eq_right (by norm_num : (100 : ℚ) + -500 ≤ 4)]
    norm_num

/-- Witness for C1: the spec's end-to-end drag — column 1 with committed
width 100, drag from origin `(50, 10)` to `(80, 10)` — publishes the single
notification `(1, 30)`. -/
theorem with_divider_drag_notification_witness :
    (divider_on_event 2 (with_divider_on_drag 1 100 4 Prod.mk) ((0 : ℕ), (0 : ℚ))
        ⟨0, 0, 100, 20⟩ (Cursor.available ⟨80, 10⟩)
        { drag_origin := some ⟨50, 10⟩, is_divider_hovered := true }
        (Event.mouse MouseEvent.cursorMoved)).published = [(1, (30 : ℚ))] := by
  have h := (with_divider_drag_notification Prod.mk ((0 : ℕ), (0 : ℚ)) 1 100 4 2
      ⟨0, 0, 100, 20⟩ { drag_origin := some ⟨50, 10⟩, is_divider_hovered := true }
      ⟨50, 10⟩ ⟨80, 10⟩ rfl).1
  rw [h, max_eq_left (by norm_num : (4 : ℚ) ≤ 100 + ((80 : ℚ) - 50))]
  norm_num

/-- C10: a left press inside the hover bounds while `drag_origin` is already
`Some` (e.g. latched after a lost release) overwrites `drag_origin` with the
new press position, captures the event, and publishes nothing; a subsequent
move at position `q` then publishes the delta from the newest origin,
`on_drag (q.x - fresh.x)`. -/
theorem press_overwrites_drag_origin {Msg : Type} (on_drag : ℚ → Msg)
    (on_release : Msg) (divider_width : ℚ) (bounds : Rectangle)
    (s : DividerState) (stale fresh : Point) (c : Cursor)
    (_hs : s.drag_origin = some stale)
    (hc : c.position_over (divider_hover_bounds divider_width bounds) = some fresh) :
    divider_on_event divider_width on_drag on_release bounds c s
        (Event.mouse (MouseEvent.buttonPressed MouseButton.left)) =
      ⟨{ drag_origin := some fresh,
         is_divider_hovered := c.is_over (divider_hover_bounds divider_width bounds) },
        [], true⟩ ∧
    (∀ q : Point,
      (divider_on_event divider_width on_drag on_release bounds
          (Cursor.available q)
          { drag_origin := some fresh,
            is_divider_hovered :=
              (c.is_over (divider_hover_bounds divider_width bounds)) }
          (Event.mouse MouseEvent.cursorMoved)).published =
        [on_drag (q.x - fresh.x)]) := by
  constructor
  · simp [divider_on_event, hc]
  · intro q
    simp [divider_on_event, Cursor.position]

/-- Witness for C10: with hover bounds `[93, 105)`, a press at `(99, 5)`
while a stale origin `(50, 5)` is latched replaces the origin and emits
nothing; a following move to `(95, 5)` publishes `-4 = 95 - 99`. -/
theorem press_overwrites_drag_origin_witness :
    divider_on_event 2 id (0 : ℚ) ⟨0, 0, 100, 20⟩ (Cursor.available ⟨99, 5⟩)
        { drag_origin := some ⟨50, 5⟩, is_divider_hovered := true }
        (Event.mouse (MouseEvent.buttonPressed MouseButton.left)) =
      ⟨{ drag_origin := some ⟨99, 5⟩,
         is_divider_hovered := ((Cursor.available ⟨99, 5⟩).is_over
            (divider_hover_bounds 2 ⟨0, 0, 100, 20⟩)) }, [], true⟩ ∧
    (divider_on_event 2 id (0 : ℚ) ⟨0, 0, 100, 20⟩ (Cursor.available ⟨95, 5⟩)
        { drag_origin := some ⟨99, 5⟩,
          is_divider_hovered := ((Cursor.available ⟨99, 5⟩).is_over
            (divider_hover_bounds 2 ⟨0, 0, 100, 20⟩)) }
        (Event.mouse MouseEvent.cursorMoved)).published = [(-4 : ℚ)] := by
  have hcontains : (divider_hover_bounds 2 ⟨0, 0, 100, 20⟩).contains ⟨99, 5⟩ = true := by
    norm_num [contains_iff, divider_hover_bounds, divider_bounds]
  have hc : (Cursor.available ⟨99, 5⟩).position_over
      (divider_hover_bounds 2 ⟨0, 0, 100, 20⟩) = some ⟨99, 5⟩ := by
    rw [position_over_available, if_pos hcontains]
  have h := press_overwrites_drag_origin id (0 : ℚ) 2 ⟨0, 0, 100, 20⟩
    { drag_origin := some ⟨50, 5⟩, is_divider_hovered := true }
    ⟨50, 5⟩ ⟨99, 5⟩ (Cursor.available ⟨99, 5⟩) rfl hc
  refine ⟨h.1, ?_⟩
  rw [h.2 ⟨95, 5⟩]
  norm_num

/-- C8 counterexample: with layout bounds `x = 0`, `width = 100`, a cursor at
horizontal position `102` — beyond the trailing edge `x + width = 100` — is
still content-hovered, because the source shifts `bounds.x` right by 5
without shrinking `bounds.width`, extending the region's trailing edge by 5. -/
theorem content_hover_trailing_edge_counterexample :
    is_content_hovered ⟨0, 0, 100, 20⟩ (Cursor.available ⟨102, 10⟩) = true ∧
    ¬(((0 : ℚ) + 5 ≤ 102) ∧ ((102 : ℚ) ≤ (0 : ℚ) + 100)) := by
  constructor
  · simp only [is_content_hovered, Cursor.is_over]
    norm_num [contains_iff]
  · norm_num

/-- C8 amended: the content-hover region is the layout bounds shifted right —
`x` replaced by `min (x + 5) (x + width - 5)` with the width unchanged — so
a cursor at `(p, q)` is content-hovered iff
`min (x+5) (x+width-5) ≤ p < min (x+5) (x+width-5) + width` (for
`width ≥ 10` this is a 5-unit leading inset and a 5-unit trailing
extension) and `q` lies vertically inside the bounds. -/
theorem is_content_hovered_characterization (bounds : Rectangle) (p q : ℚ) :
    is_content_hovered bounds (Cursor.available ⟨p, q⟩) = true ↔
      (min (bounds.x + 5) (bounds.x + bounds.width - 5) ≤ p ∧
       p < min (bounds.x + 5) (bounds.x + bounds.width - 5) + bounds.width ∧
       bounds.y ≤ q ∧ q < bounds.y + bounds.height) := by
  simp [is_content_hovered, Cursor.is_over, Rectangle.contains, and_assoc]

/-- Witness for C8's amended characterization at a point inside the
region. -/
theorem is_content_hovered_characterization_witness :
    is_content_hovered ⟨0, 0, 100, 20⟩ (Cursor.available ⟨50, 10⟩) = true :=
  (is_content_hovered_characterization ⟨0, 0, 100, 20⟩ 50 10).mpr
    (by norm_num [min_def])

end IcedTable
